import Mathlib

/-!
# Verification of the PS2 HDD engine (APA partition table + simplified PFS)

Shallow embedding of the byte-level filesystem engine found in
`ps2_hdd_reader.py`, `ps2_hdd_writer.py` and `ps2_hdd_formatter.py`.

A device is modelled as a total map from sector numbers to byte lists
(a byte is a `Nat < 256`); a sector read past the end of a real file may
return fewer than 512 bytes, which the model represents by a short list.
Python byte strings are `List Nat`, multi-byte integers are little-endian,
and `bytearray` slice assignment is the list surgery `writeBytesAt`.
-/

namespace PS2

/-- 512, the fixed sector size of the engine. -/
def SECTOR_SIZE : Nat := 512

/-- A device: sector number to the bytes read at that sector. -/
def Device : Type := Nat → List Nat

/-- `n` zero bytes (Python `bytearray(n)` / `b'\x00' * n`). -/
def zeros (n : Nat) : List Nat := List.replicate n 0

/-- Little-endian 4-byte encoding, as produced by `struct.pack('<I', v)`. -/
def le32 (v : Nat) : List Nat :=
  [v % 256, v / 256 % 256, v / 65536 % 256, v / 16777216 % 256]

/-- Little-endian 8-byte encoding, as produced by `struct.pack('<Q', v)`. -/
def le64 (v : Nat) : List Nat :=
  le32 (v % 4294967296) ++ le32 (v / 4294967296)

/-- Little-endian 4-byte decode at an offset, `struct.unpack('<I', b[off:off+4])`. -/
def readLE32 (b : List Nat) (off : Nat) : Nat :=
  b.getD off 0 + 256 * b.getD (off + 1) 0 + 65536 * b.getD (off + 2) 0 +
    16777216 * b.getD (off + 3) 0

/-- Python slice `b[i:j]`. -/
def sliceBytes (b : List Nat) (i j : Nat) : List Nat := (b.drop i).take (j - i)

/-- `bytearray` slice assignment `base[off:off+len(data)] = data`. -/
def writeBytesAt (base : List Nat) (off : Nat) (data : List Nat) : List Nat :=
  base.take off ++ data ++ base.drop (off + data.length)

/-- Python `bytes.rstrip(b'\x00')`: drop trailing zero bytes. -/
def rstripZeros (b : List Nat) : List Nat := (b.reverse.dropWhile (· == 0)).reverse

/-- Python `bytes.decode('ascii', errors='ignore')`: keep only bytes below 128. -/
def asciiIgnore (b : List Nat) : List Nat := b.filter (fun x => x < 128)

/-- Name decoding used throughout the reader: `raw.rstrip(b'\x00').decode('ascii', errors='ignore')`. -/
def decodeName (b : List Nat) : List Nat := asciiIgnore (rstripZeros b)

/-- Python `s.encode('ascii', errors='ignore')[:31]` as used for file and partition names. -/
def encodeName31 (s : List Nat) : List Nat := (asciiIgnore s).take 31

/-- Overwrite one sector of a device. -/
def writeSector (dev : Device) (s : Nat) (data : List Nat) : Device :=
  fun n => if n = s then data else dev n

/-- `PS2HDDWriter.write_sector` / `PS2HDDFormatter.write_sector`: raises `ValueError`
(modelled as `none`) unless the buffer is exactly 512 bytes. -/
def write_sector_checked (dev : Device) (s : Nat) (data : List Nat) : Option Device :=
  if data.length = SECTOR_SIZE then some (writeSector dev s data) else none

/-- The 3-byte APA magic `b'APA'`. -/
def APA_MAGIC : List Nat := [65, 80, 65]

/-- The 4-byte PFS magic `b'PFS '`. -/
def PFS_MAGIC : List Nat := [80, 70, 83, 32]

/-! ## Reader: APA partition table parser (`ps2_hdd_reader.py`, `APAParser`) -/

/-- `APAPartition(sector, size, name, pfs_type)`. -/
structure APAPartition where
  sector : Nat
  size : Nat
  name : List Nat
  pfs_type : Nat
deriving DecidableEq, Repr

/-- One iteration of `APAParser.parse_mbr`'s entry loop: decode the 16-byte slot `i`
of the MBR, skip empty or zero-start/zero-size slots, then read the partition
header sector and require the APA magic; the name is the NUL-trimmed ASCII decode
of header bytes `0x10..0x30` and `pfs_type` is the u32 at offset 4. -/
def parsePartitionEntry (dev : Device) (mbr : List Nat) (i : Nat) : Option APAPartition :=
  let entry := sliceBytes mbr (0x1BE + i * 16) (0x1BE + i * 16 + 16)
  if entry.getD 4 0 = 0 then none
  else
    let start_sector := readLE32 entry 8
    let num_sectors := readLE32 entry 12
    if start_sector = 0 ∨ num_sectors = 0 then none
    else
      let part_header := dev start_sector
      if sliceBytes part_header 0 3 = APA_MAGIC then
        some ⟨start_sector, num_sectors, decodeName (sliceBytes part_header 0x10 0x30),
          readLE32 part_header 0x4⟩
      else none

/-- `APAParser.parse_mbr`: returns `[]` when the APA magic is absent at MBR offset
`0x1B0`, otherwise decodes the four 16-byte slots at `0x1BE` in slot order. -/
def parse_mbr (dev : Device) : List APAPartition :=
  let mbr := dev 0
  if sliceBytes mbr 0x1B0 0x1B3 = APA_MAGIC then
    (List.range 4).filterMap (parsePartitionEntry dev mbr)
  else []

/-! ## Reader: PFS inodes and directories (`ps2_hdd_reader.py`, `PFSParser`) -/

/-- The dictionary returned by `PFSParser.read_inode`. -/
structure Inode where
  inode : Nat
  mode : Nat
  size : Nat
  name : List Nat
  blocks : List Nat
  is_dir : Bool
deriving DecidableEq, Repr

/-- `PFSParser.read_inode`: the 128-byte record `inode_num % 4` of sector
`partition.sector + 2 + inode_num / 4`; `none` when the slice is short.
The block list keeps only the non-zero direct pointers, in order. -/
def read_inode (dev : Device) (pstart inode_num : Nat) : Option Inode :=
  let sector_data := dev (pstart + 2 + inode_num / 4)
  let inode_data := sliceBytes sector_data (inode_num % 4 * 128) (inode_num % 4 * 128 + 128)
  if inode_data.length < 128 then none
  else
    let mode := readLE32 inode_data 0
    some { inode := inode_num
           mode := mode
           size := readLE32 inode_data 4
           name := decodeName (sliceBytes inode_data 0x20 0x40)
           blocks := ((List.range 8).map fun i => readLE32 inode_data (8 + 4 * i)).filter
             (fun b => b ≠ 0)
           is_dir := mode &&& 0x4000 ≠ 0 }

/-- The slot offsets visited by `list_directory`'s inner loop
`offset = 0; while offset < SECTOR_SIZE - 64: ...; offset += 64`:
only `0, 64, ..., 384` (seven slots; 448 is excluded by the strict bound). -/
def slotOffsets : List Nat := (List.range 7).map (· * 64)

/-- The inner slot scan of `PFSParser.list_directory` over one directory block:
stop at the first zero `inode_number`, skip entries whose decoded name is empty,
resolve the rest through `read_inode` and keep those that resolve. -/
def scanSlots (dev : Device) (pstart : Nat) (block_data : List Nat) : List Nat → List Inode
  | [] => []
  | off :: rest =>
    let entry_inode := readLE32 block_data off
    if entry_inode = 0 then []
    else
      (if decodeName (sliceBytes block_data (off + 4) (off + 36)) ≠ [] then
        (read_inode dev pstart entry_inode).toList
      else []) ++ scanSlots dev pstart block_data rest

/-- `PFSParser.list_directory` for an explicit inode number: `[]` when the inode
cannot be read or is not a directory, otherwise the per-block scans concatenated
in block order. -/
def list_directory (dev : Device) (pstart inode_num : Nat) : List Inode :=
  match read_inode dev pstart inode_num with
  | none => []
  | some dir_inode =>
    if !dir_inode.is_dir then []
    else
      (dir_inode.blocks.map fun block =>
        if block = 0 then []
        else scanSlots dev pstart (dev (pstart + block)) slotOffsets).flatten

/-! ## Writer (`ps2_hdd_writer.py`) -/

/-- The freeness test of `find_free_block`: all 512 bytes zero, or the first
four bytes zero. -/
def isFreeSector (data : List Nat) : Bool :=
  data = zeros SECTOR_SIZE ∨ sliceBytes data 0 4 = zeros 4

/-- `find_free_block(reader, partition_start, partition_size, start_from)`:
first partition-relative sector in `[start_from, min (start_from + 1000) partition_size)`
whose content passes `isFreeSector`. -/
def find_free_block (dev : Device) (pstart psize start_from : Nat) : Option Nat :=
  (List.range' start_from (min (start_from + 1000) psize - start_from)).find?
    (fun s => isFreeSector (dev (pstart + s)))

/-- The data-block reservation loop of `write_file_to_ps2`: allocate `n` blocks,
moving the cursor past each granted sector (`start_block = block + 1`). -/
def allocBlocks (dev : Device) (pstart psize : Nat) : Nat → Nat → Option (List Nat)
  | 0, _ => some []
  | n + 1, cursor =>
    match find_free_block dev pstart psize cursor with
    | none => none
    | some b => (allocBlocks dev pstart psize n (b + 1)).map (b :: ·)

/-- `allocate_inode(reader, partition_start, inode_num)`: the slot's first four
bytes (mode field) must be zero. -/
def allocate_inode (dev : Device) (pstart inode_num : Nat) : Bool :=
  sliceBytes (dev (pstart + 2 + inode_num / 4)) (inode_num % 4 * 128)
    (inode_num % 4 * 128 + 4) = zeros 4

/-- The inode-search loop of `write_file_to_ps2`: linear scan from inode 3,
giving up past the safety limit 1000. -/
def allocInode (dev : Device) (pstart : Nat) : Option Nat :=
  (List.range' 3 998).find? (fun n => allocate_inode dev pstart n)

/-- The per-pointer loop of `create_inode`:
`for i, block in enumerate(blocks[:8]): struct.pack_into('<I', inode, 8 + i*4, block)`. -/
def writeBlockPtrs (r : List Nat) (i : Nat) : List Nat → List Nat
  | [] => r
  | b :: rest => writeBlockPtrs (writeBytesAt r (8 + 4 * i) (le32 b)) (i + 1) rest

/-- `create_inode(inode_num, filename, size, blocks, is_dir)`: builds the
128-byte record (mode, size, up to eight direct pointers, name at `0x20`,
timestamps at `0x40`/`0x44`).  `now` stands for `datetime.now().timestamp()`. -/
def create_inode (filename : List Nat) (size : Nat) (blocks : List Nat) (is_dir : Bool)
    (now : Nat) : List Nat :=
  let mode : Nat := if is_dir then 0x1FF ||| 0x4000 else 0x1FF
  let r := writeBytesAt (zeros 128) 0 (le32 mode)
  let r := writeBytesAt r 4 (le32 size)
  let r := writeBlockPtrs r 0 (blocks.take 8)
  let r := writeBytesAt r 0x20 (encodeName31 filename)
  let r := writeBytesAt r 0x40 (le32 now)
  writeBytesAt r 0x44 (le32 now)

/-- `write_inode`: splice the 128-byte record into its table sector and write
the sector back. -/
def write_inode (dev : Device) (pstart inode_num : Nat) (inode_data : List Nat) : Device :=
  let inode_sector := pstart + 2 + inode_num / 4
  writeSector dev inode_sector
    (writeBytesAt (dev inode_sector) (inode_num % 4 * 128) inode_data)

/-- The empty-slot search of `add_directory_entry`:
`for offset in range(0, SECTOR_SIZE, 64)`, first slot whose first 4 bytes are zero. -/
def firstFreeSlot (block_data : List Nat) : Option Nat :=
  ((List.range 8).map (· * 64)).find?
    (fun off => sliceBytes block_data off (off + 4) = zeros 4)

/-- `add_directory_entry(reader, partition_start, dir_inode, file_inode, filename)`:
read the directory inode's first direct pointer; if zero, allocate a block
(window hard-coded to 1,000,000 sectors) and persist it into the inode first;
then write the new 64-byte entry into the first free slot of that block.
`none` models the raised exceptions (no free block / directory block full). -/
def add_directory_entry (dev : Device) (pstart dir_inode file_inode : Nat)
    (filename : List Nat) : Option Device :=
  let dir_inode_data := dev (pstart + 2 + dir_inode / 4)
  let ioff := dir_inode % 4 * 128
  let dir_block := readLE32 dir_inode_data (ioff + 8)
  let step1 : Option (Nat × Device) :=
    if dir_block = 0 then
      match find_free_block dev pstart 1000000 10 with
      | none => none
      | some b =>
        let rec' := writeBytesAt (sliceBytes dir_inode_data ioff (ioff + 128)) 8 (le32 b)
        some (b, write_inode dev pstart dir_inode rec')
    else some (dir_block, dev)
  match step1 with
  | none => none
  | some (b, dev') =>
    let block_data := dev' (pstart + b)
    match firstFreeSlot block_data with
    | none => none
    | some off =>
      let block_data := writeBytesAt block_data off (le32 file_inode)
      let block_data := writeBytesAt block_data (off + 4) (encodeName31 filename)
      some (writeSector dev' (pstart + b) block_data)

/-- Zero-pad a chunk to a full 512-byte sector
(`block_data = bytearray(SECTOR_SIZE); block_data[:len(chunk)] = chunk`). -/
def padSector (chunk : List Nat) : List Nat := chunk ++ zeros (SECTOR_SIZE - chunk.length)

/-- The data-writing loop of `write_file_to_ps2`: the `i`-th reserved block
receives `file_data[i*512 : (i+1)*512]` zero-padded to a full sector. -/
def writeDataBlocks (pstart : Nat) (file_data : List Nat) : Device → List Nat → Nat → Device
  | dev, [], _ => dev
  | dev, b :: rest, i =>
    writeDataBlocks pstart file_data
      (writeSector dev (pstart + b) (padSector (sliceBytes file_data (i * 512) (i * 512 + 512))))
      rest (i + 1)

/-- The writer core of `write_file_to_ps2` once the partition (`pstart`, `psize`)
has been resolved: reserve `ceil(len/512)` data blocks from cursor 10, pick the
first free inode from 3, write the data sectors, write the inode record, and
append a root-directory (inode 2) entry.  Returns the success flag together
with the resulting device state; every failure before the data writes leaves
the device untouched. -/
def write_file_to_ps2 (dev : Device) (pstart psize : Nat) (file_data filename : List Nat)
    (now : Nat) : Bool × Device :=
  let num_blocks := (file_data.length + SECTOR_SIZE - 1) / SECTOR_SIZE
  match allocBlocks dev pstart psize num_blocks 10 with
  | none => (false, dev)
  | some file_blocks =>
    match allocInode dev pstart with
    | none => (false, dev)
    | some inode_num =>
      let dev1 := writeDataBlocks pstart file_data dev file_blocks 0
      let inode_data := create_inode filename file_data.length file_blocks false now
      let dev2 := write_inode dev1 pstart inode_num inode_data
      match add_directory_entry dev2 pstart 2 inode_num filename with
      | none => (false, dev2)
      | some dev3 => (true, dev3)

/-! ## Formatter (`ps2_hdd_formatter.py`) -/

/-- `create_apa_mbr(total_sectors)`: APA magic at `0x1B0`, version byte, u64
total-sector count, one active 16-byte slot at `0x1BE` starting at sector 1
covering `min(total_sectors - 1, 0xFFFFFFFF)` sectors, `0x55AA` signature. -/
def create_apa_mbr (total_sectors : Nat) : List Nat :=
  let m := writeBytesAt (zeros SECTOR_SIZE) 0x1B0 APA_MAGIC
  let m := writeBytesAt m 0x1B3 [1]
  let m := writeBytesAt m 0x1B4 (le64 total_sectors)
  let m := writeBytesAt m 0x1BC [0, 0]
  let m := writeBytesAt m 0x1BE [0x80]
  let m := writeBytesAt m 0x1BF [0x00, 0x01, 0x01]
  let m := writeBytesAt m 0x1C2 [0x01]
  let m := writeBytesAt m 0x1C3 [0xFF, 0xFE, 0xFF]
  let m := writeBytesAt m 0x1C6 (le32 1)
  let m := writeBytesAt m 0x1CA (le32 (min (total_sectors - 1) 0xFFFFFFFF))
  writeBytesAt m 0x1FE [0x55, 0xAA]

/-- `create_apa_partition_header(partition_name, start_sector, num_sectors, pfs_type)`:
APA magic, pfs_type at 4, partition id 1 at 8, start at `0xC`, sector count at
`0x10`, the 32-byte NUL-padded name at `0x14`, and both timestamps at
`0x30`/`0x34` (which overwrite the last four name bytes). -/
def create_apa_partition_header (partition_name : List Nat) (start_sector num_sectors : Nat)
    (pfs_type : Nat) (now : Nat) : List Nat :=
  let h := writeBytesAt (zeros SECTOR_SIZE) 0 APA_MAGIC
  let h := writeBytesAt h 0x4 (le32 pfs_type)
  let h := writeBytesAt h 0x8 (le32 1)
  let h := writeBytesAt h 0xC (le32 start_sector)
  let h := writeBytesAt h 0x10 (le32 num_sectors)
  let nb := encodeName31 partition_name
  let h := writeBytesAt h 0x14 (nb ++ zeros (32 - nb.length))
  let h := writeBytesAt h 0x30 (le32 now)
  writeBytesAt h 0x34 (le32 now)

/-- `create_pfs_superblock(root_inode)`: PFS magic, version 1 at 4, root inode
number at `0x10`. -/
def create_pfs_superblock (root_inode : Nat) : List Nat :=
  let s := writeBytesAt (zeros SECTOR_SIZE) 0 PFS_MAGIC
  let s := writeBytesAt s 0x4 (le32 1)
  writeBytesAt s 0x10 (le32 root_inode)

/-- The device-mutating part of `format_ps2_hdd` once `total_sectors` is known:
write the MBR at sector 0, the partition header at sector 1, the superblock at
sector 2, and zero sectors `1 + i` for `i` in `range(2, min(10, partition_size))`. -/
def format_device (dev : Device) (total_sectors : Nat) (partition_name : List Nat)
    (now : Nat) : Device :=
  let dev := writeSector dev 0 (create_apa_mbr total_sectors)
  let partition_start := 1
  let partition_size := total_sectors - partition_start - 100
  let dev := writeSector dev partition_start
    (create_apa_partition_header partition_name partition_start partition_size 0x01 now)
  let dev := writeSector dev (partition_start + 1) (create_pfs_superblock 2)
  (List.range' 2 (min 10 partition_size - 2)).foldl
    (fun d i => writeSector d (partition_start + i) (zeros SECTOR_SIZE)) dev

/-! ## Spec-side descriptions and concrete example devices -/

/-- Spec-side description of one directory-block scan, following the spec's
words: take the slots in slot order up to (excluding) the first zero-inode
slot, skip those whose decoded name is empty, and resolve the rest through
`read_inode`.  Only the seven offsets `0,64,...,384` appear because the code's
loop bound `offset < SECTOR_SIZE - 64` never reaches offset 448. -/
def dirBlockScanSpec (dev : Device) (pstart : Nat) (block_data : List Nat) : List Inode :=
  ((slotOffsets.takeWhile fun off => decide (readLE32 block_data off ≠ 0)).map fun off =>
    if decodeName (sliceBytes block_data (off + 4) (off + 36)) ≠ [] then
      (read_inode dev pstart (readLE32 block_data off)).toList
    else []).flatten

/-- A device whose every sector is zero. -/
def allZeroDevice : Device := fun _ => zeros 512

/-- A device whose every sector starts with a non-zero byte, except sector 10,
which is zero in its first four bytes but non-zero at byte 4. -/
def c3Device : Device := fun s =>
  if s = 10 then [0, 0, 0, 0, 1] ++ zeros 507 else [1] ++ zeros 511

/-- A device with no free sector anywhere (every sector starts with byte 1). -/
def fullDevice : Device := fun _ => [1] ++ zeros 511

/-- A 64-byte directory entry: little-endian inode number, one name byte, padding. -/
def dirent (inum nameByte : Nat) : List Nat := le32 inum ++ [nameByte] ++ zeros 59

/-- A 128-byte directory-inode record: mode `0x41FF`, size 0, first direct
pointer `blk`. -/
def dirRec (blk : Nat) : List Nat := le32 0x41FF ++ le32 0 ++ le32 blk ++ zeros 116

/-- A 128-byte file-inode record: mode `0x1FF`, size 5, no direct pointers. -/
def fileRec : List Nat := le32 0x1FF ++ le32 5 ++ zeros 120

/-- Inode table sector holding the root directory record (inode 2, first data
block 10) and a small file record at inode 3. -/
def inodeTableSector : List Nat := zeros 256 ++ dirRec 10 ++ fileRec

/-- Device for the C4 counterexample: the root directory block at sector 10
holds eight live entries, all naming inode 3. -/
def c4Device : Device := fun s =>
  if s = 2 then inodeTableSector
  else if s = 10 then (List.replicate 8 (dirent 3 70)).flatten
  else zeros 512

/-- Device for the C6 counterexample: the root directory block holds two live
named entries; the first resolves to inode 3, the second names inode 100 whose
table sector (27) reads back empty (truncated device). -/
def c6Device : Device := fun s =>
  if s = 2 then inodeTableSector
  else if s = 10 then dirent 3 65 ++ dirent 100 66 ++ zeros 384
  else if s = 27 then []
  else zeros 512

/-- 1300 bytes of file data (the spec's 1300-byte scenario). -/
def c7FileData : List Nat := List.replicate 1300 7

/-- Device for the C7 witness: a root directory inode (inode 2) whose first
data block is sector 9, an otherwise empty inode table, and free sectors
everywhere else. -/
def c7Dev : Device := fun s =>
  if s = 2 then zeros 256 ++ dirRec 9 ++ zeros 128 else zeros 512

/-- The device after the C7 witness run's data-writing stage. -/
def c7Dev1 : Device := writeDataBlocks 0 c7FileData c7Dev [10, 11, 12] 0

/-- The device after the C7 witness run's inode write. -/
def c7Dev2 : Device :=
  write_inode c7Dev1 0 3 (create_inode [70] c7FileData.length [10, 11, 12] false 0)

/-- Device for the C8 failing input: inodes 3–31 are allocated (non-zero mode),
the rest of the table and the data area are zero.  Inode table sectors are
`2 + n/4` with `pstart = 1`, so sectors 3–10 hold inodes 0–31 and sector 11 =
partition-relative block 10 holds inodes 32–35. -/
def c8OccupiedRec : List Nat := le32 1 ++ zeros 124

/-- One inode-table sector with all four records occupied. -/
def c8FullSector : List Nat :=
  c8OccupiedRec ++ c8OccupiedRec ++ c8OccupiedRec ++ c8OccupiedRec

/-- The C8 device: partition start 1; sector 3 has slots 0–2 free and slot 3
(inode 3) occupied; sectors 4–10 (inodes 4–31) fully occupied; everything else
zero — so the first free inode is 32, whose table sector is absolute sector 11,
which is also the first free data block (partition-relative sector 10). -/
def c8Dev : Device := fun s =>
  if s = 3 then zeros 384 ++ c8OccupiedRec
  else if 4 ≤ s ∧ s ≤ 10 then c8FullSector
  else zeros 512

/-- 100 bytes of non-zero file data for the C8 run. -/
def c8FileData : List Nat := List.replicate 100 7

/-- A device holding a single 128-byte inode record at the table position of
inode `n` (sector `pstart + 2 + n / 4`, offset `(n % 4) * 128`), everything
else zero. -/
def inodeDevice (pstart n : Nat) (record : List Nat) : Device := fun s =>
  if s = pstart + 2 + n / 4 then
    zeros (n % 4 * 128) ++ record ++ zeros (384 - n % 4 * 128)
  else zeros 512

/-- The C1 counterexample record: `create_inode(_, "A", 100, [10, 0, 7], False)`. -/
def c1Record : List Nat := create_inode [65] 100 [10, 0, 7] false 0

/-! ## Basic lemmas about the byte-level helpers -/

theorem zeros_length (n : Nat) : (zeros n).length = n := by
  simp [zeros]

theorem le32_length (v : Nat) : (le32 v).length = 4 := by
  simp [le32]

theorem getD_zeros (n i : Nat) : (zeros n).getD i 0 = 0 := by
  rcases Nat.lt_or_ge i n with h | h
  · rw [List.getD_eq_getElem _ _ (by simpa [zeros] using h)]
    simp [zeros]
  · exact List.getD_eq_default _ _ (by simpa [zeros] using h)

theorem writeBytesAt_length {base data : List Nat} {off : Nat}
    (h : off + data.length ≤ base.length) :
    (writeBytesAt base off data).length = base.length := by
  simp only [writeBytesAt, List.length_append, List.length_take, List.length_drop]
  omega

theorem writeBytesAt_nil (base : List Nat) (off : Nat) :
    writeBytesAt base off [] = base := by
  simp [writeBytesAt, List.take_append_drop]

theorem writeBytesAt_cons_succ (x : Nat) (l data : List Nat) (off : Nat) :
    writeBytesAt (x :: l) (off + 1) data = x :: writeBytesAt l off data := by
  have h : off + 1 + data.length = (off + data.length) + 1 := by omega
  simp [writeBytesAt, h]

/-- Write entirely inside the right part of an append. -/
theorem writeBytesAt_append_right :
    ∀ (a : List Nat) {off : Nat}, a.length ≤ off → ∀ (b data : List Nat),
      writeBytesAt (a ++ b) off data = a ++ writeBytesAt b (off - a.length) data
  | [], off, _, b, data => by simp
  | x :: a, off, h, b, data => by
    cases off with
    | zero => simp at h
    | succ off =>
      rw [List.cons_append, writeBytesAt_cons_succ,
        writeBytesAt_append_right a (by simpa using h) b data]
      simp [Nat.succ_sub_succ]

/-- Write at the very start of a list. -/
theorem writeBytesAt_zero (b data : List Nat) :
    writeBytesAt b 0 data = data ++ b.drop data.length := by
  simp [writeBytesAt]

theorem writeBytesAt_zeros_zero (m : Nat) (data : List Nat) :
    writeBytesAt (zeros m) 0 data = data ++ zeros (m - data.length) := by
  rw [writeBytesAt_zero]
  simp [zeros, List.drop_replicate]

theorem zeros_append_zeros (m n : Nat) : zeros m ++ zeros n = zeros (m + n) := by
  unfold zeros
  exact (List.replicate_add m n 0).symm

theorem writeBytesAt_zeros_mid (M t : Nat) (data : List Nat) (h : t + data.length ≤ M) :
    writeBytesAt (zeros M) t data = zeros t ++ (data ++ zeros (M - t - data.length)) := by
  unfold writeBytesAt
  rw [zeros, List.take_replicate, List.drop_replicate,
    show min t M = t from by omega, show M - (t + data.length) = M - t - data.length from by omega]
  simp [zeros, List.append_assoc]


/-- Byte of a written region: below the write, unchanged. -/
theorem getD_writeBytesAt_left {base data : List Nat} {off i : Nat}
    (hb : off + data.length ≤ base.length) (h : i < off) :
    (writeBytesAt base off data).getD i 0 = base.getD i 0 := by
  unfold writeBytesAt
  rw [List.getD_append _ _ _ _ (by simp [List.length_take]; omega),
    List.getD_append _ _ _ _ (by simp [List.length_take]; omega)]
  rcases Nat.lt_or_ge i base.length with hi | hi
  · rw [List.getD_eq_getElem _ _ (by simp [List.length_take]; omega),
      List.getD_eq_getElem _ _ hi]
    simp [List.getElem_take]
  · omega

/-- Byte of a written region: inside the write, comes from the data. -/
theorem getD_writeBytesAt_mid {base data : List Nat} {off i : Nat}
    (hb : off ≤ base.length) (h1 : off ≤ i) (h2 : i < off + data.length) :
    (writeBytesAt base off data).getD i 0 = data.getD (i - off) 0 := by
  unfold writeBytesAt
  rw [List.append_assoc, List.getD_append_right _ _ _ _ (by simp [List.length_take]; omega),
    List.getD_append _ _ _ _ (by simp [List.length_take]; omega)]
  congr 1
  simp [List.length_take]
  omega

/-- Byte of a written region: above the write, unchanged. -/
theorem getD_writeBytesAt_right {base data : List Nat} {off i : Nat}
    (hb : off + data.length ≤ base.length) (h : off + data.length ≤ i) :
    (writeBytesAt base off data).getD i 0 = base.getD i 0 := by
  rcases Nat.lt_or_ge i base.length with hi | hi
  · unfold writeBytesAt
    rw [List.append_assoc, List.getD_append_right _ _ _ _ (by simp [List.length_take]; omega),
      List.getD_append_right _ _ _ _ (by simp [List.length_take]; omega)]
    rw [List.getD_eq_getElem _ _ (by simp [List.length_take]; omega),
      List.getD_eq_getElem _ _ hi]
    simp [List.length_take]
    congr 1
    omega
  · rw [List.getD_eq_default _ _ (by rw [writeBytesAt_length hb]; exact hi),
      List.getD_eq_default _ _ hi]


/-! ## Claim C9: missing APA magic gives an empty partition list -/

/-- C9: for every device whose sector 0 does not carry the 3-byte APA magic at
offset `0x1B0`, `parse_mbr` returns the empty list (the code only warns) and,
being a pure read, leaves the device unchanged — the model's `parse_mbr` takes
the device and returns only a list, so no mutation is possible. -/
theorem c9_no_magic_empty (dev : Device)
    (h : sliceBytes (dev 0) 0x1B0 0x1B3 ≠ APA_MAGIC) : parse_mbr dev = [] := by
  simp only [parse_mbr]
  rw [if_neg h]

/-- Witness for C9 on the all-zero device. -/
theorem c9_no_magic_empty_witness :
    sliceBytes (allZeroDevice 0) 0x1B0 0x1B3 ≠ APA_MAGIC ∧ parse_mbr allZeroDevice = [] :=
  ⟨by decide, c9_no_magic_empty allZeroDevice (by decide)⟩

/-! ## Claim C3: what `find_free_block` guarantees about the sector it returns -/

/-- C3 counterexample: `find_free_block` returns sector 10 of `c3Device`
although that sector's full 512-byte content is not entirely zero (byte 4 is 1);
only its first four bytes are zero. -/
theorem c3_counterexample :
    find_free_block c3Device 0 20 10 = some 10 ∧ c3Device (0 + 10) ≠ zeros SECTOR_SIZE := by
  constructor
  · decide
  · decide

/-- C3 (amended): whenever `find_free_block` returns a sector index, the first
four bytes of that sector, as read before any subsequent write, are zero — the
full 512 bytes need not be, because the code also accepts the looser
first-4-bytes-zero heuristic. -/
theorem c3_free_block_first4_zero (dev : Device) (pstart psize start_from b : Nat)
    (h : find_free_block dev pstart psize start_from = some b) :
    sliceBytes (dev (pstart + b)) 0 4 = zeros 4 := by
  have hp := List.find?_some h
  simp only [isFreeSector, decide_eq_true_eq] at hp
  rcases hp with hp | hp
  · rw [hp]; decide
  · exact hp

/-- Witness for C3 (amended) on `c3Device`. -/
theorem c3_free_block_first4_zero_witness :
    find_free_block c3Device 0 20 10 = some 10 ∧ sliceBytes (c3Device (0 + 10)) 0 4 = zeros 4 :=
  ⟨by decide, c3_free_block_first4_zero c3Device 0 20 10 10 (by decide)⟩

/-! ## Claim C5: failed block allocation leaves the device untouched -/

/-- C5: if the block-reservation loop of `write_file_to_ps2` cannot reserve all
`ceil(len/512)` data sectors (the allocator returns `None` within its window),
the operation fails and the device is entirely unchanged: no data sector, no
inode record and no directory entry has been written, since all writes happen
after the allocation loop succeeds. -/
theorem c5_out_of_space_no_mutation (dev : Device) (pstart psize : Nat)
    (file_data filename : List Nat) (now : Nat)
    (h : allocBlocks dev pstart psize ((file_data.length + SECTOR_SIZE - 1) / SECTOR_SIZE) 10 =
      none) :
    write_file_to_ps2 dev pstart psize file_data filename now = (false, dev) := by
  simp only [write_file_to_ps2]
  rw [h]

/-- Witness for C5: on a device with no free sector in the window, writing one
byte fails with the device unchanged. -/
theorem c5_out_of_space_no_mutation_witness :
    allocBlocks fullDevice 0 20 ((([1] : List Nat).length + SECTOR_SIZE - 1) / SECTOR_SIZE) 10 =
      none ∧
    write_file_to_ps2 fullDevice 0 20 [1] [65] 0 = (false, fullDevice) :=
  ⟨by decide, c5_out_of_space_no_mutation fullDevice 0 20 [1] [65] 0 (by decide)⟩

/-! ## Claim C4: which directory slots `list_directory` examines -/

set_option maxRecDepth 4000 in
/-- C4 counterexample: a directory block with eight live, named, resolvable
entries yields only seven listed entries; the eighth slot (offset 448) is live
but never decoded, because the loop bound `offset < SECTOR_SIZE - 64` excludes
it. -/
theorem c4_counterexample :
    (list_directory c4Device 0 2).length = 7 ∧ readLE32 (c4Device (0 + 10)) 448 ≠ 0 := by
  constructor
  · decide
  · decide

/-- Auxiliary: the slot scan equals its takeWhile description on any offset list. -/
theorem scanSlots_eq_takeWhile (dev : Device) (pstart : Nat) (block_data : List Nat) :
    ∀ offs : List Nat,
      scanSlots dev pstart block_data offs =
        ((offs.takeWhile fun off => decide (readLE32 block_data off ≠ 0)).map fun off =>
          if decodeName (sliceBytes block_data (off + 4) (off + 36)) ≠ [] then
            (read_inode dev pstart (readLE32 block_data off)).toList
          else []).flatten
  | [] => rfl
  | off :: rest => by
    show (if readLE32 block_data off = 0 then [] else
      (if decodeName (sliceBytes block_data (off + 4) (off + 36)) ≠ [] then
        (read_inode dev pstart (readLE32 block_data off)).toList
      else []) ++ scanSlots dev pstart block_data rest) = _
    by_cases h : readLE32 block_data off = 0
    · rw [if_pos h, List.takeWhile_cons]
      have hd : decide (readLE32 block_data off ≠ 0) = false := by simp [h]
      rw [hd]
      simp
    · rw [if_neg h, List.takeWhile_cons]
      have hd : decide (readLE32 block_data off ≠ 0) = true := by simp [h]
      rw [hd]
      simp only [if_true, List.map_cons, List.flatten_cons]
      rw [scanSlots_eq_takeWhile dev pstart block_data rest]

/-- C4 (amended): `list_directory` decodes only the first seven 64-byte slots
(offsets 0, 64, ..., 384) of each directory block, in slot order, stopping at
the first zero-inode slot; live slots whose decoded name is empty are skipped
without being resolved, and every remaining live slot's inode number is
resolved through `read_inode`.  The eighth slot (offset 448) is never examined. -/
theorem c4_seven_slot_scan (dev : Device) (pstart inode_num : Nat) :
    list_directory dev pstart inode_num =
      (match read_inode dev pstart inode_num with
      | none => []
      | some dir_inode =>
        if !dir_inode.is_dir then []
        else
          (dir_inode.blocks.map fun block =>
            if block = 0 then [] else dirBlockScanSpec dev pstart (dev (pstart + block))).flatten) := by
  unfold list_directory dirBlockScanSpec
  cases read_inode dev pstart inode_num with
  | none => rfl
  | some di =>
    dsimp only
    cases hdir : di.is_dir with
    | false => rfl
    | true =>
      simp only [Bool.not_true, Bool.false_eq_true, if_false]
      congr 1
      refine List.map_congr_left fun block _ => ?_
      by_cases hb : block = 0
      · simp [hb]
      · rw [if_neg hb, if_neg hb]
        exact scanSlots_eq_takeWhile dev pstart (dev (pstart + block)) slotOffsets

/-! ## Claim C6: is a directory listing all-or-nothing? -/

set_option maxRecDepth 10000 in
/-- C6 counterexample: on `c6Device` the root directory block has two live,
named entries, the second of which fails to decode (`read_inode` returns
`none` on the truncated sector 27), yet `list_directory` returns the one
successfully decoded entry — a truncated partial result, neither the complete
list nor the empty list. -/
theorem c6_counterexample :
    list_directory c6Device 0 2 =
      [{ inode := 3, mode := 511, size := 5, name := [], blocks := [], is_dir := false }] ∧
    readLE32 (c6Device (0 + 10)) 64 ≠ 0 ∧
    decodeName (sliceBytes (c6Device (0 + 10)) 68 100) ≠ [] ∧
    read_inode c6Device 0 (readLE32 (c6Device (0 + 10)) 64) = none := by
  refine ⟨by decide, by decide, by decide, by decide⟩

/-- C6 (amended): a directory listing is not all-or-nothing; decode failures
are skipped per entry, and entries that decode successfully are returned even
when a later entry's inode cannot be read.  In particular, when the first slot
of a directory block is live with a non-empty name and its inode resolves to
`r`, then `r` appears in the listing whatever happens to the other slots. -/
theorem c6_partial_results_returned (dev : Device) (pstart inode_num : Nat)
    (di : Inode) (b : Nat) (r : Inode)
    (hdi : read_inode dev pstart inode_num = some di)
    (hdir : di.is_dir = true)
    (hb : b ∈ di.blocks) (hbne : b ≠ 0)
    (hlive : readLE32 (dev (pstart + b)) 0 ≠ 0)
    (hname : decodeName (sliceBytes (dev (pstart + b)) 4 36) ≠ [])
    (hr : read_inode dev pstart (readLE32 (dev (pstart + b)) 0) = some r) :
    r ∈ list_directory dev pstart inode_num := by
  unfold list_directory
  rw [hdi]
  simp only [hdir, Bool.not_true, Bool.false_eq_true, if_false]
  rw [List.mem_flatten]
  refine ⟨scanSlots dev pstart (dev (pstart + b)) slotOffsets, ?_, ?_⟩
  · rw [List.mem_map]
    exact ⟨b, hb, by rw [if_neg hbne]⟩
  · have hslots : slotOffsets = 0 :: [64, 128, 192, 256, 320, 384] := rfl
    rw [hslots]
    show r ∈ (if readLE32 (dev (pstart + b)) 0 = 0 then [] else
      (if decodeName (sliceBytes (dev (pstart + b)) (0 + 4) (0 + 36)) ≠ [] then
        (read_inode dev pstart (readLE32 (dev (pstart + b)) 0)).toList
      else []) ++ scanSlots dev pstart (dev (pstart + b)) [64, 128, 192, 256, 320, 384])
    rw [if_neg hlive, if_pos (show decodeName (sliceBytes (dev (pstart + b)) (0 + 4) (0 + 36)) ≠ [] by simpa using hname), hr]
    simp

set_option maxRecDepth 10000 in
/-- Witness for C6 (amended) on `c6Device`: the first entry is listed although
the second entry's inode is unreadable. -/
theorem c6_partial_results_returned_witness :
    ({ inode := 3, mode := 511, size := 5, name := [], blocks := [], is_dir := false } : Inode) ∈
      list_directory c6Device 0 2 :=
  c6_partial_results_returned c6Device 0 2
    { inode := 2, mode := 0x41FF, size := 0, name := [], blocks := [10], is_dir := true }
    10 { inode := 3, mode := 511, size := 5, name := [], blocks := [], is_dir := false }
    (by decide) (by decide) (by decide) (by decide) (by decide) (by decide) (by decide)

/-! ## Claim C10: every write path passes exactly 512 bytes -/

theorem writeBytesAt_length_eq {r data : List Nat} {off n : Nat} (hr : r.length = n)
    (h : off + data.length ≤ n) : (writeBytesAt r off data).length = n := by
  rw [writeBytesAt_length (by rw [hr]; exact h)]
  exact hr

theorem le64_length (v : Nat) : (le64 v).length = 8 := by
  simp [le64, le32]

theorem encodeName31_length_le (s : List Nat) : (encodeName31 s).length ≤ 31 := by
  simp [encodeName31]

theorem sliceBytes_length_le (b : List Nat) (i j : Nat) : (sliceBytes b i j).length ≤ j - i := by
  simp [sliceBytes]

theorem writeBlockPtrs_length :
    ∀ (bl : List Nat) (r : List Nat) (i : Nat), r.length = 128 → 4 * i + 4 * bl.length ≤ 120 →
      (writeBlockPtrs r i bl).length = 128
  | [], _, _, h, _ => h
  | b :: rest, r, i, h, hb => by
    show (writeBlockPtrs (writeBytesAt r (8 + 4 * i) (le32 b)) (i + 1) rest).length = 128
    apply writeBlockPtrs_length rest _ (i + 1)
    · exact writeBytesAt_length_eq h (by rw [le32_length]; simp at hb; omega)
    · simp at hb ⊢; omega

theorem create_inode_length (filename : List Nat) (size : Nat) (blocks : List Nat)
    (is_dir : Bool) (now : Nat) :
    (create_inode filename size blocks is_dir now).length = 128 := by
  unfold create_inode
  refine writeBytesAt_length_eq (writeBytesAt_length_eq (writeBytesAt_length_eq
    (writeBlockPtrs_length _ _ _ (writeBytesAt_length_eq (writeBytesAt_length_eq
      (zeros_length 128) ?_) ?_) ?_) ?_) ?_) ?_
  · rw [le32_length]; omega
  · rw [le32_length]; omega
  · have := List.length_take 8 blocks
    omega
  · have := encodeName31_length_le filename
    omega
  · rw [le32_length]; omega
  · rw [le32_length]; omega

theorem create_apa_mbr_length (total_sectors : Nat) :
    (create_apa_mbr total_sectors).length = SECTOR_SIZE := by
  show _ = 512
  unfold create_apa_mbr
  refine writeBytesAt_length_eq (writeBytesAt_length_eq (writeBytesAt_length_eq
    (writeBytesAt_length_eq (writeBytesAt_length_eq (writeBytesAt_length_eq
    (writeBytesAt_length_eq (writeBytesAt_length_eq (writeBytesAt_length_eq
    (writeBytesAt_length_eq (writeBytesAt_length_eq (zeros_length 512)
    (by simp [APA_MAGIC])) (by simp)) (by rw [le64_length]; omega)) (by simp)) (by simp)) (by simp))
    (by simp)) (by simp)) (by rw [le32_length]; omega)) (by rw [le32_length]; omega)) (by simp)

theorem create_apa_partition_header_length (partition_name : List Nat)
    (start_sector num_sectors pfs_type now : Nat) :
    (create_apa_partition_header partition_name start_sector num_sectors pfs_type now).length =
      SECTOR_SIZE := by
  show _ = 512
  unfold create_apa_partition_header
  refine writeBytesAt_length_eq (writeBytesAt_length_eq (writeBytesAt_length_eq
    (writeBytesAt_length_eq (writeBytesAt_length_eq (writeBytesAt_length_eq
    (writeBytesAt_length_eq (writeBytesAt_length_eq (zeros_length 512)
    (by simp [APA_MAGIC])) (by rw [le32_length]; omega)) (by rw [le32_length]; omega))
    (by rw [le32_length]; omega)) (by rw [le32_length]; omega)) ?_)
    (by rw [le32_length]; omega)) (by rw [le32_length]; omega)
  have := encodeName31_length_le partition_name
  simp only [List.length_append, zeros_length]
  omega

theorem create_pfs_superblock_length (root_inode : Nat) :
    (create_pfs_superblock root_inode).length = SECTOR_SIZE := by
  show _ = 512
  unfold create_pfs_superblock
  exact writeBytesAt_length_eq (writeBytesAt_length_eq (writeBytesAt_length_eq
    (zeros_length 512) (by simp [PFS_MAGIC])) (by rw [le32_length]; omega)) (by rw [le32_length]; omega)

theorem padSector_length {c : List Nat} (h : c.length ≤ SECTOR_SIZE) :
    (padSector c).length = SECTOR_SIZE := by
  simp only [padSector, List.length_append, zeros_length]
  omega

/-- C10: `write_sector` raises `ValueError` (modelled `none`) exactly when the
buffer is not 512 bytes; and, provided every sector read returns a full 512
bytes, every buffer the write path and the formatter hand to `write_sector`
has exactly 512 bytes, so the error branch is unreachable there: the MBR,
partition header, superblock and zero-fill sectors of the formatter, the padded
data sectors of `write_file_to_ps2`, the spliced inode-table sector written by
`write_inode` (the record itself being 128 bytes), and the directory-block
sector written by `add_directory_entry` (entry at a slot offset `≤ 448`). -/
theorem c10_all_writes_are_full_sectors :
    (∀ (dev : Device) (s : Nat) (data : List Nat), data.length ≠ SECTOR_SIZE →
      write_sector_checked dev s data = none)
    ∧ (∀ (dev : Device) (s : Nat) (data : List Nat), data.length = SECTOR_SIZE →
      write_sector_checked dev s data = some (writeSector dev s data))
    ∧ (∀ total_sectors, (create_apa_mbr total_sectors).length = SECTOR_SIZE)
    ∧ (∀ (name : List Nat) (start num pt now : Nat),
      (create_apa_partition_header name start num pt now).length = SECTOR_SIZE)
    ∧ (∀ root_inode, (create_pfs_superblock root_inode).length = SECTOR_SIZE)
    ∧ (zeros SECTOR_SIZE).length = SECTOR_SIZE
    ∧ (∀ (file_data : List Nat) (i : Nat),
      (padSector (sliceBytes file_data (i * 512) (i * 512 + 512))).length = SECTOR_SIZE)
    ∧ (∀ (filename : List Nat) (size : Nat) (blocks : List Nat) (is_dir : Bool) (now : Nat),
      (create_inode filename size blocks is_dir now).length = 128)
    ∧ (∀ (dev : Device) (pstart n : Nat) (rec : List Nat),
      (dev (pstart + 2 + n / 4)).length = SECTOR_SIZE → rec.length = 128 →
      (writeBytesAt (dev (pstart + 2 + n / 4)) (n % 4 * 128) rec).length = SECTOR_SIZE)
    ∧ (∀ (block_data : List Nat) (off fi : Nat) (nm : List Nat),
      block_data.length = SECTOR_SIZE → off ≤ 448 →
      (writeBytesAt (writeBytesAt block_data off (le32 fi)) (off + 4)
        (encodeName31 nm)).length = SECTOR_SIZE) := by
  refine ⟨?_, ?_, create_apa_mbr_length, create_apa_partition_header_length,
    create_pfs_superblock_length, zeros_length _, ?_, create_inode_length, ?_, ?_⟩
  · intro dev s data h
    simp [write_sector_checked, h]
  · intro dev s data h
    simp [write_sector_checked, h]
  · intro file_data i
    apply padSector_length
    have := sliceBytes_length_le file_data (i * 512) (i * 512 + 512)
    show _ ≤ 512
    omega
  · intro dev pstart n rec hdev hrec
    have hm : n % 4 < 4 := Nat.mod_lt _ (by norm_num)
    exact writeBytesAt_length_eq hdev (by rw [hrec]; show _ ≤ 512; omega)
  · intro block_data off fi nm hbd hoff
    have := encodeName31_length_le nm
    refine writeBytesAt_length_eq (writeBytesAt_length_eq hbd ?_) ?_
    · rw [le32_length]; show _ ≤ 512; omega
    · show _ ≤ 512; omega

set_option maxRecDepth 10000 in
/-- Witness for C10, instantiating each hypothesis-bearing conjunct at concrete
inputs. -/
theorem c10_all_writes_are_full_sectors_witness :
    write_sector_checked allZeroDevice 0 [1] = none
    ∧ write_sector_checked allZeroDevice 0 (zeros 512) =
      some (writeSector allZeroDevice 0 (zeros 512))
    ∧ (create_apa_mbr 1000000).length = SECTOR_SIZE
    ∧ (writeBytesAt (allZeroDevice (0 + 2 + 3 / 4)) (3 % 4 * 128)
        (create_inode [65] 5 [10] false 0)).length = SECTOR_SIZE
    ∧ (writeBytesAt (writeBytesAt (zeros 512) 448 (le32 3)) (448 + 4)
        (encodeName31 [65])).length = SECTOR_SIZE :=
  ⟨c10_all_writes_are_full_sectors.1 allZeroDevice 0 [1] (by decide),
   c10_all_writes_are_full_sectors.2.1 allZeroDevice 0 (zeros 512) (by decide),
   c10_all_writes_are_full_sectors.2.2.1 1000000,
   c10_all_writes_are_full_sectors.2.2.2.2.2.2.2.2.1 allZeroDevice 0 3
     (create_inode [65] 5 [10] false 0) (by decide)
     (c10_all_writes_are_full_sectors.2.2.2.2.2.2.2.1 [65] 5 [10] false 0),
   c10_all_writes_are_full_sectors.2.2.2.2.2.2.2.2.2 (zeros 512) 448 3 [65] (by decide)
     (by decide)⟩

/-! ## Claim C1: the inode encode/decode round trip -/

theorem ptrBytes_length : ∀ bl : List Nat, ((bl.map le32).flatten).length = 4 * bl.length
  | [] => rfl
  | b :: rest => by
    simp only [List.map_cons, List.flatten_cons, List.length_append, le32_length,
      ptrBytes_length rest, List.length_cons]
    omega

theorem readLE32_le32_head (v : Nat) (rest : List Nat) (hv : v < 4294967296) :
    readLE32 (le32 v ++ rest) 0 = v := by
  simp only [readLE32, le32]
  rw [List.getD_append _ _ _ _ (by simp), List.getD_append _ _ _ _ (by simp),
    List.getD_append _ _ _ _ (by simp), List.getD_append _ _ _ _ (by simp)]
  simp only [List.getD_cons_zero, List.getD_cons_succ]
  omega

theorem readLE32_append_right (a rest : List Nat) (off : Nat) (h : a.length ≤ off) :
    readLE32 (a ++ rest) off = readLE32 rest (off - a.length) := by
  simp only [readLE32]
  rw [List.getD_append_right _ _ _ _ (by omega), List.getD_append_right _ _ _ _ (by omega),
    List.getD_append_right _ _ _ _ (by omega), List.getD_append_right _ _ _ _ (by omega)]
  have e1 : off + 1 - a.length = off - a.length + 1 := by omega
  have e2 : off + 2 - a.length = off - a.length + 2 := by omega
  have e3 : off + 3 - a.length = off - a.length + 3 := by omega
  rw [e1, e2, e3]

theorem readLE32_zeros_head (m : Nat) (rest : List Nat) (off : Nat) (h : off + 4 ≤ m) :
    readLE32 (zeros m ++ rest) off = 0 := by
  simp only [readLE32]
  rw [List.getD_append _ _ _ _ (by rw [zeros_length]; omega),
    List.getD_append _ _ _ _ (by rw [zeros_length]; omega),
    List.getD_append _ _ _ _ (by rw [zeros_length]; omega),
    List.getD_append _ _ _ _ (by rw [zeros_length]; omega)]
  simp only [getD_zeros]

theorem readLE32_flatten_le32 :
    ∀ (bl : List Nat) (rest : List Nat) (i : Nat), i < bl.length →
      (∀ b ∈ bl, b < 4294967296) →
      readLE32 ((bl.map le32).flatten ++ rest) (4 * i) = bl.getD i 0
  | [], _, i, hi, _ => by simp at hi
  | b :: blrest, rest, 0, _, hb => by
    simp only [List.map_cons, List.flatten_cons, List.append_assoc, Nat.mul_zero,
      List.getD_cons_zero]
    exact readLE32_le32_head b _ (hb b (List.mem_cons_self _ _))
  | b :: blrest, rest, i + 1, hi, hb => by
    simp only [List.map_cons, List.flatten_cons, List.append_assoc, List.getD_cons_succ]
    rw [readLE32_append_right (le32 b) _ _ (by rw [le32_length]; omega), le32_length]
    have e : 4 * (i + 1) - 4 = 4 * i := by omega
    rw [e]
    exact readLE32_flatten_le32 blrest rest i (by simpa using hi)
      (fun x hx => hb x (List.mem_cons_of_mem _ hx))

theorem sliceBytes_append_right (a rest : List Nat) (i j : Nat) (ha : a.length ≤ i)
    (hij : i ≤ j) :
    sliceBytes (a ++ rest) i j = sliceBytes rest (i - a.length) (j - a.length) := by
  simp only [sliceBytes]
  rw [List.drop_append_eq_append_drop, List.drop_eq_nil_of_le ha, List.nil_append]
  have e : j - i = j - a.length - (i - a.length) := by omega
  rw [e]

theorem sliceBytes_zeros_head (m : Nat) (rest : List Nat) (i j : Nat) (hj : j ≤ m)
    (hij : i ≤ j) :
    sliceBytes (zeros m ++ rest) i j = zeros (j - i) := by
  simp only [sliceBytes, zeros]
  rw [List.drop_append_eq_append_drop, List.drop_replicate, List.length_replicate,
    show i - m = 0 from by omega, List.drop_zero,
    List.take_append_eq_append_take, List.take_replicate, List.length_replicate,
    show j - i - (m - i) = 0 from by omega, List.take_zero, List.append_nil,
    show min (j - i) (m - i) = j - i from by omega]

theorem sliceBytes_extract (off : Nat) (record suffix : List Nat)
    (hrec : record.length = 128) :
    sliceBytes (zeros off ++ record ++ suffix) off (off + 128) = record := by
  simp only [sliceBytes]
  rw [List.append_assoc]
  have h1 : List.drop off (zeros off ++ (record ++ suffix)) = record ++ suffix := by
    have h := List.drop_left (zeros off) (record ++ suffix)
    rwa [zeros_length] at h
  rw [h1, show off + 128 - off = 128 from by omega, ← hrec, List.take_left]

theorem writeBlockPtrs_zeros :
    ∀ (bl pre : List Nat) (i m : Nat), pre.length = 8 + 4 * i → 4 * bl.length ≤ m →
      writeBlockPtrs (pre ++ zeros m) i bl =
        (pre ++ (bl.map le32).flatten) ++ zeros (m - 4 * bl.length)
  | [], pre, i, m, hp, hb => by simp [writeBlockPtrs]
  | b :: rest, pre, i, m, hp, hb => by
    show writeBlockPtrs (writeBytesAt (pre ++ zeros m) (8 + 4 * i) (le32 b)) (i + 1) rest = _
    rw [writeBytesAt_append_right pre (show pre.length ≤ 8 + 4 * i by omega), hp,
      Nat.sub_self, writeBytesAt_zeros_zero, le32_length, ← List.append_assoc]
    rw [writeBlockPtrs_zeros rest (pre ++ le32 b) (i + 1) (m - 4)
      (by simp [hp, le32_length]; omega) (by simp at hb ⊢; omega)]
    simp only [List.map_cons, List.flatten_cons, List.append_assoc, List.length_cons]
    rw [show m - 4 - 4 * rest.length = m - 4 * (rest.length + 1) from by omega]

/-- The 128-byte record built by `create_inode` for an empty file name and at
most six direct pointers, in explicit concatenation form. -/
theorem create_inode_nil_nf (size : Nat) (blocks : List Nat) (is_dir : Bool) (now : Nat)
    (hk : blocks.length ≤ 6) :
    create_inode [] size blocks is_dir now =
      ((le32 (if is_dir then 0x1FF ||| 0x4000 else 0x1FF) ++ le32 size) ++
        (blocks.map le32).flatten) ++
        (zeros (56 - 4 * blocks.length) ++ (le32 now ++ (le32 now ++ zeros 56))) := by
  simp only [create_inode, encodeName31, asciiIgnore, List.filter_nil, List.take_nil,
    writeBytesAt_nil]
  rw [List.take_of_length_le (by omega)]
  rw [writeBytesAt_zeros_zero, le32_length,
    writeBytesAt_append_right _ (show (le32 _).length ≤ 4 by rw [le32_length]),
    le32_length, Nat.sub_self, writeBytesAt_zeros_zero, le32_length,
    show (128:Nat) - 4 = 124 from rfl, show (124:Nat) - 4 = 120 from rfl,
    ← List.append_assoc]
  rw [writeBlockPtrs_zeros blocks _ 0 120 (by simp [le32_length]) (by omega)]
  have hf : ((blocks.map le32).flatten).length = 4 * blocks.length := ptrBytes_length blocks
  have hpre : ((le32 (if is_dir then 0x1FF ||| 0x4000 else 0x1FF) ++ le32 size) ++
      (blocks.map le32).flatten).length = 8 + 4 * blocks.length := by
    simp [le32_length, hf]
    omega
  rw [writeBytesAt_append_right _ (show _ ≤ 64 by rw [hpre]; omega), hpre]
  rw [writeBytesAt_zeros_mid _ _ _ (by rw [le32_length]; omega), le32_length]
  rw [show 64 - (8 + 4 * blocks.length) = 56 - 4 * blocks.length from by omega,
    show 120 - 4 * blocks.length - (56 - 4 * blocks.length) - 4 = 60 from by omega]
  rw [writeBytesAt_append_right _ (show _ ≤ 68 by rw [hpre]; omega), hpre]
  rw [← List.append_assoc (zeros (56 - 4 * blocks.length))]
  rw [writeBytesAt_append_right (zeros (56 - 4 * blocks.length) ++ le32 now)
    (show _ ≤ 68 - (8 + 4 * blocks.length) by simp [zeros_length, le32_length]; omega)]
  rw [show (zeros (56 - 4 * blocks.length) ++ le32 now).length = 60 - 4 * blocks.length
    from by simp [zeros_length, le32_length]; omega]
  rw [show 68 - (8 + 4 * blocks.length) - (60 - 4 * blocks.length) = 0 from by omega,
    writeBytesAt_zeros_zero, le32_length, show (60:Nat) - 4 = 56 from rfl]
  simp [List.append_assoc]

theorem dropWhile_beq_zero_replicate (n : Nat) :
    (List.replicate n (0:Nat)).dropWhile (· == 0) = [] := by
  induction n with
  | zero => rfl
  | succ k ih => simpa [List.replicate_succ] using ih

theorem decodeName_zeros (n : Nat) : decodeName (zeros n) = [] := by
  simp [decodeName, rstripZeros, asciiIgnore, zeros, List.reverse_replicate,
    dropWhile_beq_zero_replicate]

theorem filter_ne_zero_replicate (n : Nat) :
    (List.replicate n (0:Nat)).filter (fun b => decide (b ≠ 0)) = [] := by
  induction n with
  | zero => rfl
  | succ k ih => simpa [List.replicate_succ] using ih

set_option maxRecDepth 10000 in
/-- C1 counterexample: encode the valid inode (name `"A"`, size 100, block
pointers `[10, 0, 7]`) with `create_inode` and decode with `read_inode`: the
decoded block-pointer list is `[10, 7, 65]`, not `[10, 0, 7]` — the zero
pointer is dropped, and the name byte `65` written at offset `0x20` is read
back as a seventh block pointer, because the name field overlaps the pointer
array.  So `decode(encode(inode)) ≠ inode`. -/
theorem c1_counterexample :
    read_inode (inodeDevice 0 3 c1Record) 0 3 =
      some { inode := 3, mode := 511, size := 100, name := [65], blocks := [10, 7, 65],
             is_dir := false } ∧ ([10, 7, 65] : List Nat) ≠ [10, 0, 7] := by
  constructor
  · decide
  · decide

/-- C1 (amended): the inode round trip holds only on the subclass the overlap
does not corrupt: for every valid inode value with an empty name, at most six
direct block pointers, all non-zero (and `size`, `now` fitting in 32 bits),
decoding the record produced by `create_inode` with `read_inode` returns the
same mode, size, (empty) name and block-pointer list, at any table position. -/
theorem c1_roundtrip_amended (pstart n size now : Nat) (blocks : List Nat) (is_dir : Bool)
    (hsize : size < 4294967296) (hnow : now < 4294967296) (hk : blocks.length ≤ 6)
    (hbl : ∀ b ∈ blocks, b ≠ 0 ∧ b < 4294967296) :
    read_inode (inodeDevice pstart n (create_inode [] size blocks is_dir now)) pstart n =
      some { inode := n, mode := if is_dir then 0x1FF ||| 0x4000 else 0x1FF, size := size,
             name := [], blocks := blocks, is_dir := is_dir } := by
  have hrl : (create_inode [] size blocks is_dir now).length = 128 :=
    create_inode_length [] size blocks is_dir now
  have hnf' : create_inode [] size blocks is_dir now =
      le32 (if is_dir then 0x1FF ||| 0x4000 else 0x1FF) ++ (le32 size ++
        ((blocks.map le32).flatten ++ (zeros (56 - 4 * blocks.length) ++
        (le32 now ++ (le32 now ++ zeros 56))))) := by
    rw [create_inode_nil_nf size blocks is_dir now hk]
    simp [List.append_assoc]
  have hmode_lt : (if is_dir then 0x1FF ||| 0x4000 else 0x1FF) < 4294967296 := by
    cases is_dir <;> decide
  have hA : readLE32 (create_inode [] size blocks is_dir now) 0 =
      (if is_dir then 0x1FF ||| 0x4000 else 0x1FF) := by
    rw [hnf']
    exact readLE32_le32_head _ _ hmode_lt
  have hB : readLE32 (create_inode [] size blocks is_dir now) 4 = size := by
    rw [hnf', readLE32_append_right (le32 _) _ _ (by rw [le32_length]), le32_length,
      Nat.sub_self]
    exact readLE32_le32_head _ _ hsize
  have hC : decodeName (sliceBytes (create_inode [] size blocks is_dir now) 0x20 0x40) = [] := by
    rw [hnf',
      sliceBytes_append_right (le32 _) _ _ _ (by rw [le32_length]; omega) (by omega),
      le32_length,
      sliceBytes_append_right (le32 size) _ _ _ (by rw [le32_length]; omega) (by omega),
      le32_length,
      sliceBytes_append_right ((blocks.map le32).flatten) _ _ _
        (by rw [ptrBytes_length]; omega) (by omega),
      ptrBytes_length,
      sliceBytes_zeros_head _ _ _ _ (by omega) (by omega)]
    exact decodeName_zeros _
  have hread : ∀ i : Nat, i < 8 →
      readLE32 (create_inode [] size blocks is_dir now) (8 + 4 * i) =
        if i < blocks.length then blocks.getD i 0 else 0 := by
    intro i hi
    rw [hnf',
      readLE32_append_right (le32 _) _ _ (by rw [le32_length]; omega), le32_length,
      readLE32_append_right (le32 size) _ _ (by rw [le32_length]; omega), le32_length,
      show 8 + 4 * i - 4 - 4 = 4 * i from by omega]
    by_cases hik : i < blocks.length
    · rw [if_pos hik]
      exact readLE32_flatten_le32 blocks _ i hik (fun b hb => (hbl b hb).2)
    · rw [if_neg hik,
        readLE32_append_right ((blocks.map le32).flatten) _ _
          (by rw [ptrBytes_length]; omega),
        ptrBytes_length]
      exact readLE32_zeros_head _ _ _ (by omega)
  have hmap : ((List.range 8).map fun i =>
      readLE32 (create_inode [] size blocks is_dir now) (8 + 4 * i)) =
      blocks ++ List.replicate (8 - blocks.length) 0 := by
    apply List.ext_getElem
    · simp
      omega
    · intro i h1 h2
      simp only [List.getElem_map, List.getElem_range]
      rw [hread i (by simpa using h1)]
      by_cases hik : i < blocks.length
      · rw [if_pos hik, List.getElem_append_left hik]
        exact List.getD_eq_getElem blocks 0 hik
      · rw [if_neg hik, List.getElem_append_right (by omega)]
        simp
  have hD : (((List.range 8).map fun i =>
      readLE32 (create_inode [] size blocks is_dir now) (8 + 4 * i)).filter
        fun b => b ≠ 0) = blocks := by
    rw [hmap, List.filter_append]
    rw [List.filter_eq_self.mpr (fun a ha => by simp [(hbl a ha).1]),
      filter_ne_zero_replicate, List.append_nil]
  simp only [read_inode, inodeDevice, eq_self_iff_true, if_true]
  rw [sliceBytes_extract _ _ _ hrl]
  rw [if_neg (by rw [hrl]; omega)]
  simp only [Option.some.injEq, Inode.mk.injEq]
  refine ⟨trivial, hA, hB, hC, hD, ?_⟩
  rw [hA]
  cases is_dir <;> decide

/-- Witness for C1 (amended): a concrete two-pointer inode round-trips. -/
theorem c1_roundtrip_amended_witness :
    read_inode (inodeDevice 1 5 (create_inode [] 1300 [10, 11] false 7)) 1 5 =
      some { inode := 5, mode := 0x1FF, size := 1300, name := [], blocks := [10, 11],
             is_dir := false } :=
  c1_roundtrip_amended 1 5 1300 7 [10, 11] false (by decide) (by decide) (by decide)
    (by decide)

/-! ## Claim C2: formatting then enumerating partitions -/

theorem dropWhile_replicate_zero_append (p : Nat → Bool) (hp : p 0 = true) :
    ∀ (k : Nat) (l : List Nat),
      (List.replicate k (0:Nat) ++ l).dropWhile p = l.dropWhile p
  | 0, l => by simp
  | k + 1, l => by
    simp only [List.replicate_succ, List.cons_append, List.dropWhile_cons, hp, if_true]
    exact dropWhile_replicate_zero_append p hp k l

theorem rstripZeros_append_zeros (x : List Nat) (k : Nat) :
    rstripZeros (x ++ zeros k) = rstripZeros x := by
  simp only [rstripZeros, zeros, List.reverse_append, List.reverse_replicate]
  rw [dropWhile_replicate_zero_append _ (by decide)]

theorem rstripZeros_last_ne_zero (x : List Nat) (b : Nat) (hb : b ≠ 0) :
    rstripZeros (x ++ [b]) = x ++ [b] := by
  simp [rstripZeros, hb]

set_option maxRecDepth 10000 in
/-- The partition header built by the formatter for partition 1 of a
1,000,000-sector device, in explicit concatenation form: the sector-count
field at `0x10` is followed by the name at `0x14` (not `0x10` where the reader
looks), truncated to 28 bytes by the timestamp at `0x30`. -/
theorem header_nf (name : List Nat) (now : Nat) (hlen : name.length ≤ 28)
    (hascii : ∀ b ∈ name, b < 128) :
    create_apa_partition_header name 1 999899 1 now =
      APA_MAGIC ++ (zeros 1 ++ (le32 1 ++ (le32 1 ++ (le32 1 ++ (le32 999899 ++
        (name ++ (zeros (28 - name.length) ++ (le32 now ++ (le32 now ++ zeros 456))))))))) := by
  have hname : encodeName31 name = name := by
    unfold encodeName31 asciiIgnore
    rw [List.filter_eq_self.mpr (fun a ha => by simpa using hascii a ha),
      List.take_of_length_le (by omega)]
  simp only [create_apa_partition_header, hname, SECTOR_SIZE]
  have hlen32 : name.length ≤ 32 := by omega
  have e32 : name.length + (32 - name.length) = 32 := by omega
  have e2 : 32 - name.length + 460 = 492 - name.length := by omega
  have e3 : 492 - name.length - (28 - name.length) - 4 = 460 := by omega
  have e4 : 32 - name.length - (28 - name.length) = 4 := by omega
  have e5 : 28 - name.length ≤ 32 - name.length := by omega
  have hc : 28 - name.length + 4 ≤ 492 - name.length := by omega
  have hAPA : APA_MAGIC.length = 3 := rfl
  simp [writeBytesAt_zeros_zero, writeBytesAt_append_right, writeBytesAt_zeros_mid,
    zeros_append_zeros, le32_length, zeros_length, hAPA,
    hlen, hlen32, e32, e2, e3, e4, e5, hc]
  rw [show (zeros 0 : List Nat) = [] from rfl]
  repeat rw [List.nil_append]

theorem APA_MAGIC_length : APA_MAGIC.length = 3 := rfl

theorem sliceBytes_self (b : List Nat) (i : Nat) : sliceBytes b i i = [] := by
  simp [sliceBytes]

theorem sliceBytes_append_left (a rest : List Nat) (j : Nat) (h : a.length ≤ j) :
    sliceBytes (a ++ rest) 0 j = a ++ sliceBytes rest 0 (j - a.length) := by
  simp only [sliceBytes, List.drop_zero, Nat.sub_zero]
  rw [List.take_append_eq_append_take, List.take_of_length_le h]

/-- The header's first three bytes are the APA magic. -/
theorem header_magic (name : List Nat) (now : Nat) (hlen : name.length ≤ 28)
    (hascii : ∀ b ∈ name, b < 128) :
    sliceBytes (create_apa_partition_header name 1 999899 1 now) 0 3 = APA_MAGIC := by
  rw [header_nf name now hlen hascii,
    sliceBytes_append_left APA_MAGIC _ 3 (by rw [APA_MAGIC_length]),
    show 3 - APA_MAGIC.length = 0 from rfl, sliceBytes_self, List.append_nil]

/-- The header's u32 at offset 4 (what the reader takes as `pfs_type`) is 1. -/
theorem header_pfs_type (name : List Nat) (now : Nat) (hlen : name.length ≤ 28)
    (hascii : ∀ b ∈ name, b < 128) :
    readLE32 (create_apa_partition_header name 1 999899 1 now) 0x4 = 1 := by
  rw [header_nf name now hlen hascii,
    readLE32_append_right APA_MAGIC _ _ (by rw [APA_MAGIC_length]; omega),
    show 4 - APA_MAGIC.length = 1 from rfl,
    readLE32_append_right (zeros 1) _ _ (by rw [zeros_length]),
    show 1 - (zeros 1).length = 0 from rfl]
  exact readLE32_le32_head 1 _ (by decide)

/-- The name the reader decodes from header bytes `0x10..0x30` is the three
ASCII-surviving bytes of the little-endian sector count 999899 followed by the
configured name: the reader looks 4 bytes before where the formatter put the
name. -/
theorem rstrip_pre_name (pre name : List Nat) (k : Nat) (hne : name ≠ [])
    (hnz : ∀ b ∈ name, b ≠ 0) :
    rstripZeros (pre ++ (name ++ zeros k)) = pre ++ name := by
  rw [← List.append_assoc, rstripZeros_append_zeros]
  obtain ⟨ys, b, h⟩ : ∃ ys b, name = ys ++ [b] := by
    rcases List.eq_nil_or_concat name with h | ⟨ys, b, h⟩
    · exact absurd h hne
    · exact ⟨ys, b, by simpa [List.concat_eq_append] using h⟩
  subst h
  rw [← List.append_assoc, rstripZeros_last_ne_zero _ b (hnz b (by simp)),
    List.append_assoc]

theorem header_parsed_name (name : List Nat) (now : Nat) (hne : name ≠ [])
    (hlen : name.length ≤ 28) (hb : ∀ b ∈ name, 0 < b ∧ b < 128) :
    decodeName (sliceBytes (create_apa_partition_header name 1 999899 1 now) 0x10 0x30) =
      [65, 15, 0] ++ name := by
  have hascii : ∀ b ∈ name, b < 128 := fun b hbm => (hb b hbm).2
  rw [header_nf name now hlen hascii]
  rw [sliceBytes_append_right APA_MAGIC _ _ _ (by simp [APA_MAGIC_length]) (by omega)]
  rw [APA_MAGIC_length]
  rw [sliceBytes_append_right (zeros 1) _ _ _ (by simp [zeros_length]) (by omega)]
  rw [zeros_length]
  rw [sliceBytes_append_right (le32 1) _ _ _ (by simp [le32_length]) (by omega)]
  rw [le32_length]
  rw [sliceBytes_append_right (le32 1) _ _ _ (by simp [le32_length]) (by omega)]
  rw [le32_length]
  rw [sliceBytes_append_right (le32 1) _ _ _ (by simp [le32_length]) (by omega)]
  rw [le32_length]
  rw [show (16:Nat) - 3 - 1 - 4 - 4 - 4 = 0 from rfl]
  rw [show (48:Nat) - 3 - 1 - 4 - 4 - 4 = 32 from rfl]
  rw [sliceBytes_append_left (le32 999899) _ 32 (by rw [le32_length]; omega)]
  rw [le32_length]
  rw [sliceBytes_append_left name _ (32 - 4) (by omega)]
  rw [show (32:Nat) - 4 = 28 from rfl]
  rw [sliceBytes_zeros_head _ _ 0 (28 - name.length) (by omega) (by omega)]
  rw [Nat.sub_zero]
  unfold decodeName
  rw [rstrip_pre_name (le32 999899) name (28 - name.length) hne
    (fun a ha => by have := (hb a ha).1; omega)]
  unfold asciiIgnore
  rw [List.filter_append]
  rw [show (le32 999899).filter (fun x => decide (x < 128)) = [65, 15, 0] from by decide]
  rw [List.filter_eq_self.mpr (fun a ha => by
    simp only [decide_eq_true_eq]
    exact (hb a (by simpa using ha)).2)]

/-- Sector 0 of a freshly formatted 1,000,000-sector device is the APA MBR. -/
theorem format_device_sector0 (dev : Device) (name : List Nat) (now : Nat) :
    format_device dev 1000000 name now 0 = create_apa_mbr 1000000 := by
  simp only [format_device]
  norm_num
  rw [show List.range' 2 8 = [2, 3, 4, 5, 6, 7, 8, 9] from by decide]
  simp [writeSector]

/-- Sector 1 of a freshly formatted 1,000,000-sector device is the partition
header for sectors `1..999899`. -/
theorem format_device_sector1 (dev : Device) (name : List Nat) (now : Nat) :
    format_device dev 1000000 name now 1 =
      create_apa_partition_header name 1 999899 1 now := by
  simp only [format_device]
  norm_num
  rw [show List.range' 2 8 = [2, 3, 4, 5, 6, 7, 8, 9] from by decide]
  simp [writeSector]

set_option maxRecDepth 10000 in
/-- C2 counterexample: format a 1,000,000-sector all-zero device with the
default partition name `"__mbr"` and enumerate: exactly one partition comes
back, but its name is NOT the configured name — it is prefixed by the three
ASCII-surviving bytes `0x41 0x0F 0x00` of the sector-count field, because the
formatter writes the name at header offset `0x14` while the reader decodes it
from `0x10`. -/
theorem c2_counterexample :
    (parse_mbr (format_device allZeroDevice 1000000 [95, 95, 109, 98, 114] 0)).map
      APAPartition.name = [[65, 15, 0] ++ [95, 95, 109, 98, 114]] ∧
    ([65, 15, 0] ++ [95, 95, 109, 98, 114] : List Nat) ≠ [95, 95, 109, 98, 114] := by
  constructor
  · decide
  · decide

set_option maxRecDepth 10000 in
/-- C2 (amended): after formatting a 1,000,000-sector device, enumerating
partitions returns exactly one partition with `start_sector = 1` (and
999,999 sectors), but its decoded name is `[0x41, 0x0F, 0x00]` followed by the
configured name (of 1–28 non-NUL ASCII bytes), not the configured name itself:
the reader reads the name field 4 bytes lower than the formatter writes it, so
the low three ASCII bytes of the partition sector count 999899 leak into the
name and names longer than 28 bytes would be clipped by the timestamps. -/
theorem c2_format_then_enumerate (dev : Device) (name : List Nat) (now : Nat)
    (hne : name ≠ []) (hlen : name.length ≤ 28) (hb : ∀ b ∈ name, 0 < b ∧ b < 128) :
    parse_mbr (format_device dev 1000000 name now) =
      [{ sector := 1, size := 999999, name := [65, 15, 0] ++ name, pfs_type := 1 }] := by
  have hascii : ∀ b ∈ name, b < 128 := fun b hbm => (hb b hbm).2
  have hs0 := format_device_sector0 dev name now
  have hs1 := format_device_sector1 dev name now
  have hp0 : parsePartitionEntry (format_device dev 1000000 name now)
      (create_apa_mbr 1000000) 0 =
      some { sector := 1, size := 999999, name := [65, 15, 0] ++ name, pfs_type := 1 } := by
    simp only [parsePartitionEntry]
    rw [if_neg (by decide), if_neg (by decide),
      show readLE32 (sliceBytes (create_apa_mbr 1000000) (0x1BE + 0 * 16)
        (0x1BE + 0 * 16 + 16)) 8 = 1 from by decide, hs1,
      if_pos (header_magic name now hlen hascii)]
    rw [show readLE32 (sliceBytes (create_apa_mbr 1000000) (0x1BE + 0 * 16)
        (0x1BE + 0 * 16 + 16)) 12 = 999999 from by decide]
    rw [header_parsed_name name now hne hlen hb, header_pfs_type name now hlen hascii]
  have hp1 : parsePartitionEntry (format_device dev 1000000 name now)
      (create_apa_mbr 1000000) 1 = none := by
    simp only [parsePartitionEntry]
    exact if_pos (by decide)
  have hp2 : parsePartitionEntry (format_device dev 1000000 name now)
      (create_apa_mbr 1000000) 2 = none := by
    simp only [parsePartitionEntry]
    exact if_pos (by decide)
  have hp3 : parsePartitionEntry (format_device dev 1000000 name now)
      (create_apa_mbr 1000000) 3 = none := by
    simp only [parsePartitionEntry]
    exact if_pos (by decide)
  unfold parse_mbr
  rw [hs0, if_pos (by decide), show List.range 4 = [0, 1, 2, 3] from rfl]
  rw [List.filterMap_cons, List.filterMap_cons, List.filterMap_cons, List.filterMap_cons,
    List.filterMap_nil]
  rw [hp0, hp1, hp2, hp3]

set_option maxRecDepth 10000 in
/-- Witness for C2 (amended) with the default name `"__mbr"`. -/
theorem c2_format_then_enumerate_witness :
    parse_mbr (format_device allZeroDevice 1000000 [95, 95, 109, 98, 114] 0) =
      [{ sector := 1, size := 999999, name := [65, 15, 0] ++ [95, 95, 109, 98, 114],
         pfs_type := 1 }] :=
  c2_format_then_enumerate allZeroDevice [95, 95, 109, 98, 114] 0 (by decide) (by decide)
    (by decide)

/-! ## C7: the write path reserves exactly the right blocks -/

theorem find_free_block_ge {dev : Device} {pstart psize s b : Nat}
    (h : find_free_block dev pstart psize s = some b) : s ≤ b := by
  have hm := List.mem_of_find?_eq_some h
  rw [List.mem_range'] at hm
  obtain ⟨i, _, rfl⟩ := hm
  omega

theorem allocBlocks_length {dev : Device} {pstart psize : Nat} :
    ∀ (n cursor : Nat) {blocks : List Nat},
      allocBlocks dev pstart psize n cursor = some blocks → blocks.length = n := by
  intro n
  induction n with
  | zero =>
    intro cursor blocks h
    have h2 : ([] : List Nat) = blocks := by simpa [allocBlocks] using h
    rw [← h2]
    rfl
  | succ n ih =>
    intro cursor blocks h
    simp only [allocBlocks] at h
    cases hf : find_free_block dev pstart psize cursor with
    | none => rw [hf] at h; simp at h
    | some b =>
      rw [hf] at h
      dsimp only at h
      cases hr : allocBlocks dev pstart psize n (b + 1) with
      | none => rw [hr] at h; simp at h
      | some bl =>
        rw [hr] at h
        have h2 : b :: bl = blocks := by simpa using h
        rw [← h2, List.length_cons, ih (b + 1) hr]

theorem allocBlocks_range {dev : Device} {pstart psize : Nat} :
    ∀ (n cursor : Nat) {blocks : List Nat},
      allocBlocks dev pstart psize n cursor = some blocks →
      List.Pairwise (· < ·) blocks ∧ ∀ b ∈ blocks, cursor ≤ b := by
  intro n
  induction n with
  | zero =>
    intro cursor blocks h
    have h2 : ([] : List Nat) = blocks := by simpa [allocBlocks] using h
    rw [← h2]
    exact ⟨List.Pairwise.nil, by simp⟩
  | succ n ih =>
    intro cursor blocks h
    simp only [allocBlocks] at h
    cases hf : find_free_block dev pstart psize cursor with
    | none => rw [hf] at h; simp at h
    | some b =>
      rw [hf] at h
      dsimp only at h
      cases hr : allocBlocks dev pstart psize n (b + 1) with
      | none => rw [hr] at h; simp at h
      | some bl =>
        rw [hr] at h
        have h2 : b :: bl = blocks := by simpa using h
        obtain ⟨hp, hge⟩ := ih (b + 1) hr
        have hcb : cursor ≤ b := find_free_block_ge hf
        rw [← h2]
        refine ⟨List.pairwise_cons.mpr ⟨fun x hx => ?_, hp⟩, ?_⟩
        · have := hge x hx
          omega
        · intro y hy
          rcases List.mem_cons.mp hy with rfl | hy2
          · exact hcb
          · have := hge y hy2
            omega

theorem writeDataBlocks_other (pstart : Nat) (fd : List Nat) :
    ∀ (blocks : List Nat) (dev : Device) (i s : Nat),
      (∀ b ∈ blocks, pstart + b ≠ s) →
      writeDataBlocks pstart fd dev blocks i s = dev s := by
  intro blocks
  induction blocks with
  | nil => intro dev i s _; rfl
  | cons b rest ih =>
    intro dev i s h
    rw [writeDataBlocks, ih _ (i + 1) s (fun x hx => h x (List.mem_cons_of_mem b hx))]
    have hne : s ≠ pstart + b := fun hc => h b (List.mem_cons_self b rest) hc.symm
    simp [writeSector, hne]

theorem writeDataBlocks_content (pstart : Nat) (fd : List Nat) :
    ∀ (blocks : List Nat) (dev : Device) (i : Nat),
      List.Pairwise (· < ·) blocks →
      ∀ (j : Nat) (hj : j < blocks.length),
        writeDataBlocks pstart fd dev blocks i (pstart + blocks.get ⟨j, hj⟩) =
          padSector (sliceBytes fd ((i + j) * 512) ((i + j) * 512 + 512)) := by
  intro blocks
  induction blocks with
  | nil => intro dev i _ j hj; exact absurd hj (by simp)
  | cons b rest ih =>
    intro dev i hp j hj
    rw [List.pairwise_cons] at hp
    cases j with
    | zero =>
      have hne : ∀ x ∈ rest, pstart + x ≠ pstart + b := by
        intro x hx
        have := hp.1 x hx
        omega
      rw [show (b :: rest).get ⟨0, hj⟩ = b from rfl, writeDataBlocks,
        writeDataBlocks_other pstart fd rest _ (i + 1) _ hne]
      simp [writeSector]
    | succ j =>
      have hj2 : j < rest.length := Nat.lt_of_succ_lt_succ hj
      have e : i + (j + 1) = i + 1 + j := by omega
      rw [show (b :: rest).get ⟨j + 1, hj⟩ = rest.get ⟨j, hj2⟩ from rfl, e, writeDataBlocks,
        ih _ (i + 1) hp.2 j hj2]

/-- **C7**: on the success path, `write_file_to_ps2` reserves exactly
`ceil(len/512)` data sectors; they are pairwise distinct, strictly increasing
(the cursor advances past each granted sector) and all at least 10; each
reserved sector receives the corresponding 512-byte chunk of the file,
zero-padded to a full sector (so the final sector's tail is zero-padded); and
the run succeeds, modifying exactly one sector beyond the data and inode
writes — the root directory block, whose first previously-free 64-byte slot
(its 4 inode bytes were zero) receives the new entry. -/
theorem c7_write_reserves_blocks (dev : Device) (pstart psize : Nat)
    (file_data filename : List Nat) (now : Nat) (blocks : List Nat)
    (inode_num b0 off : Nat) (dev1 dev2 : Device)
    (halloc : allocBlocks dev pstart psize
      ((file_data.length + SECTOR_SIZE - 1) / SECTOR_SIZE) 10 = some blocks)
    (hinode : allocInode dev pstart = some inode_num)
    (hdev1 : dev1 = writeDataBlocks pstart file_data dev blocks 0)
    (hdev2 : dev2 = write_inode dev1 pstart inode_num
      (create_inode filename file_data.length blocks false now))
    (hb0 : readLE32 (dev2 (pstart + 2)) 264 = b0)
    (hbne : b0 ≠ 0)
    (hoff : firstFreeSlot (dev2 (pstart + b0)) = some off) :
    blocks.length = (file_data.length + SECTOR_SIZE - 1) / SECTOR_SIZE ∧
    List.Pairwise (· < ·) blocks ∧
    (∀ b ∈ blocks, 10 ≤ b) ∧
    (∀ (j : Nat) (hj : j < blocks.length),
      dev1 (pstart + blocks.get ⟨j, hj⟩) =
        padSector (sliceBytes file_data (j * 512) (j * 512 + 512))) ∧
    sliceBytes (dev2 (pstart + b0)) off (off + 4) = zeros 4 ∧
    write_file_to_ps2 dev pstart psize file_data filename now =
      (true, writeSector dev2 (pstart + b0)
        (writeBytesAt (writeBytesAt (dev2 (pstart + b0)) off (le32 inode_num))
          (off + 4) (encodeName31 filename))) ∧
    (∀ s, s ≠ pstart + b0 →
      writeSector dev2 (pstart + b0)
        (writeBytesAt (writeBytesAt (dev2 (pstart + b0)) off (le32 inode_num))
          (off + 4) (encodeName31 filename)) s = dev2 s) := by
  obtain ⟨hp, hge⟩ := allocBlocks_range _ 10 halloc
  have hlen := allocBlocks_length _ 10 halloc
  have hadd : add_directory_entry dev2 pstart 2 inode_num filename =
      some (writeSector dev2 (pstart + b0)
        (writeBytesAt (writeBytesAt (dev2 (pstart + b0)) off (le32 inode_num))
          (off + 4) (encodeName31 filename))) := by
    simp only [add_directory_entry]
    norm_num
    rw [hb0, if_neg hbne]
    dsimp only
    rw [hoff]
  refine ⟨hlen, hp, hge, ?_, ?_, ?_, ?_⟩
  · intro j hj
    rw [hdev1]
    have := writeDataBlocks_content pstart file_data blocks dev 0 hp j hj
    simpa using this
  · have := List.find?_some hoff
    simpa using this
  · simp only [write_file_to_ps2]
    rw [halloc, hinode]
    dsimp only
    rw [← hdev1, ← hdev2, hadd]
  · intro s hs
    simp [writeSector, hs]

set_option maxRecDepth 10000 in
/-- Witness for C7: on `c7Dev`, a 1300-byte file reserves exactly the three
strictly increasing sectors 10, 11, 12, each written zero-padded, and the
root-directory block (sector 9) gains exactly one new entry in its first slot. -/
theorem c7_write_reserves_blocks_witness :
    allocBlocks c7Dev 0 10000 ((c7FileData.length + SECTOR_SIZE - 1) / SECTOR_SIZE) 10 =
        some [10, 11, 12] ∧
    (([10, 11, 12] : List Nat).length =
        (c7FileData.length + SECTOR_SIZE - 1) / SECTOR_SIZE ∧
      List.Pairwise (· < ·) ([10, 11, 12] : List Nat) ∧
      (∀ b ∈ ([10, 11, 12] : List Nat), 10 ≤ b) ∧
      (∀ (j : Nat) (hj : j < ([10, 11, 12] : List Nat).length),
        c7Dev1 (0 + ([10, 11, 12] : List Nat).get ⟨j, hj⟩) =
          padSector (sliceBytes c7FileData (j * 512) (j * 512 + 512))) ∧
      sliceBytes (c7Dev2 (0 + 9)) 0 (0 + 4) = zeros 4 ∧
      write_file_to_ps2 c7Dev 0 10000 c7FileData [70] 0 =
        (true, writeSector c7Dev2 (0 + 9)
          (writeBytesAt (writeBytesAt (c7Dev2 (0 + 9)) 0 (le32 3)) (0 + 4)
            (encodeName31 [70]))) ∧
      (∀ s, s ≠ 0 + 9 →
        writeSector c7Dev2 (0 + 9)
          (writeBytesAt (writeBytesAt (c7Dev2 (0 + 9)) 0 (le32 3)) (0 + 4)
            (encodeName31 [70])) s = c7Dev2 s)) :=
  ⟨by decide,
   c7_write_reserves_blocks c7Dev 0 10000 c7FileData [70] 0 [10, 11, 12] 3 9 0 c7Dev1 c7Dev2
     (by decide) (by decide) rfl rfl (by decide) (by decide) (by decide)⟩

/-! ## C8: the inode-slot free invariant is broken by the data writes -/

set_option maxRecDepth 10000 in
/-- **C8** (code bug): on `c8Dev` (partition start 1, inodes 3–31 occupied),
writing a 100-byte file reserves partition-relative data block 10 — which is
absolute sector 11, the inode-table sector of inodes 32–35 — while the inode
scan picks inode 32, whose record lives in that very sector.  Inode 32's mode
field is zero at selection time, but after the data writes the slot holds file
bytes, so `write_inode` stores the record into a table slot whose existing
mode field is non-zero, violating the claimed invariant. -/
theorem c8_inode_slot_overwritten :
    allocBlocks c8Dev 1 1000000 ((c8FileData.length + SECTOR_SIZE - 1) / SECTOR_SIZE) 10 =
        some [10] ∧
    allocInode c8Dev 1 = some 32 ∧
    allocate_inode c8Dev 1 32 = true ∧
    1 + 2 + 32 / 4 = 1 + 10 ∧
    sliceBytes (writeDataBlocks 1 c8FileData c8Dev [10] 0 (1 + 2 + 32 / 4)) (32 % 4 * 128)
        (32 % 4 * 128 + 4) ≠ zeros 4 := by
  decide

end PS2
